import Mathlib

/-!
Verification of the bruno-docs converter (src/main.py): a shallow embedding of
the .bru block extractor (parse_bru_file / parse_params_block), the Markdown
renderer (generate_request_markdown) and the per-folder sorting step, together
with theorems settling the specification's claims.

The Python code locates blocks with regular expressions.  Each regex used by
the source is embedded below as an executable scanner over List Char with the
exact leftmost-match/backtracking semantics of Python's re module on that
pattern.  Character classes are modelled at ASCII level (the source is only
ever exercised on ASCII .bru syntax): \s is the six ASCII whitespace
characters, \d is 0-9, \w is [A-Za-z0-9_], and IGNORECASE letter matching
accepts the upper-case variant of a lower-case pattern letter.
-/

/-- The character U+007B (left curly brace). -/
def lbrace : Char := Char.ofNat 123

/-- The character U+007D (right curly brace). -/
def rbrace : Char := Char.ofNat 125

/-- ASCII model of Python's str whitespace / regex \s:
space, tab, newline, carriage return, vertical tab, form feed. -/
def pyIsSpace (c : Char) : Bool :=
  c = ' ' || c = '\t' || c = '\n' || c = '\r' || c = Char.ofNat 11 || c = Char.ofNat 12

/-- ASCII decimal digit (regex \d). -/
def pyIsDigit (c : Char) : Bool := '0' ≤ c && c ≤ '9'

/-- ASCII word character (regex \w). -/
def pyIsWord (c : Char) : Bool :=
  ('a' ≤ c && c ≤ 'z') || ('A' ≤ c && c ≤ 'Z') || pyIsDigit c || c = '_'

/-- Python str.strip(): remove whitespace from both ends. -/
def pyStrip (l : List Char) : List Char :=
  ((l.dropWhile pyIsSpace).reverse.dropWhile pyIsSpace).reverse

/-- String-valued wrapper for pyStrip. -/
def pyStripS (l : List Char) : String := String.mk (pyStrip l)

/-- Python str.split('\n'): always yields one piece more than the number of
newlines; the empty string splits to [""]. -/
def splitOnNl : List Char → List (List Char)
  | [] => [[]]
  | c :: rest =>
    match splitOnNl rest with
    | [] => [[]]
    | l :: ls => if c = '\n' then [] :: l :: ls else (c :: l) :: ls

/-- Python int() on a non-empty ASCII digit string. -/
def natOfDigits (l : List Char) : Nat :=
  l.foldl (fun n c => n * 10 + (c.toNat - 48)) 0

/-- Match a literal pattern at the head of the input, returning the rest. -/
def chopLit : List Char → List Char → Option (List Char)
  | [], s => some s
  | _ :: _, [] => none
  | p :: ps, c :: cs => if c = p then chopLit ps cs else none

/-- Case-insensitive literal match (pattern letters are lower case, a text
character also matches as its upper-case variant); returns the matched text
characters and the rest. -/
def ciChop : List Char → List Char → Option (List Char × List Char)
  | [], s => some ([], s)
  | _ :: _, [] => none
  | p :: ps, c :: cs =>
    if c = p || c = p.toUpper then
      (ciChop ps cs).map (fun m => (c :: m.1, m.2))
    else none

/-- After a block tag: the regex fragment \s*\{([\s\S]*?)\} — skip whitespace,
require a left brace, and capture up to (excluding) the first right brace,
which must exist. -/
def wsBraceBody (s : List Char) : Option (List Char) :=
  match s.dropWhile pyIsSpace with
  | [] => none
  | c :: rest =>
    if c = lbrace then
      if rest.any (· = rbrace) then some (rest.takeWhile (· ≠ rbrace)) else none
    else none

/-- One attempt of the regex tag\s*\{([\s\S]*?)\} at the current position. -/
def tryBlockAt (tag : List Char) (s : List Char) : Option (List Char) :=
  match chopLit tag s with
  | none => none
  | some rest => wsBraceBody rest

/-- Embeds re.search(tag + r'\s*\{([\s\S]*?)\}', s) (case sensitive), as used
for the meta block (main.py line 35) and the parameter blocks (line 58):
leftmost position where the tag is followed by optional whitespace, a left
brace and a later right brace; returns capture group 1. -/
def reSearchBlock (tag : List Char) : List Char → Option (List Char)
  | [] => tryBlockAt tag []
  | c :: rest =>
    match tryBlockAt tag (c :: rest) with
    | some b => some b
    | none => reSearchBlock tag rest

/-- The seven HTTP-method alternatives of the regex on main.py line 45,
in the pattern's alternation order. -/
def methodAlts : List (List Char) :=
  ["get".data, "post".data, "put".data, "patch".data,
   "delete".data, "options".data, "head".data]

/-- One attempt, at the current position, of the regex
(get|post|put|patch|delete|options|head)\s*\{([\s\S]*?)\} with IGNORECASE:
each alternative is tried in order, and group 1 (the matched tag text as it
appears in the input) and group 2 (the block body) are returned. -/
def tryAltsAt : List (List Char) → List Char → Option (List Char × List Char)
  | [], _ => none
  | a :: as, s =>
    match ciChop a s with
    | some (m, rest) =>
      match wsBraceBody rest with
      | some body => some (m, body)
      | none => tryAltsAt as s
    | none => tryAltsAt as s

/-- Embeds re.search of the HTTP-method block pattern (main.py line 45). -/
def reSearchMethod : List Char → Option (List Char × List Char)
  | [] => tryAltsAt methodAlts []
  | c :: rest =>
    match tryAltsAt methodAlts (c :: rest) with
    | some r => some r
    | none => reSearchMethod rest

/-- One attempt of key + r'\s*(.*)' at the current position: after the literal
key, the greedy \s* consumes the maximal whitespace run (which may span
newlines) and (.*) captures the remainder of that line.  Always succeeds once
the literal key matches. -/
def tryKeyAt (key : List Char) (s : List Char) : Option (List Char) :=
  match chopLit key s with
  | none => none
  | some rest => some ((rest.dropWhile pyIsSpace).takeWhile (· ≠ '\n'))

/-- Embeds re.search(r'name:\s*(.*)', meta_content) (main.py line 40, and the
folder-name lookup on line 203), generic in the literal key. -/
def reSearchKeyLine (key : List Char) : List Char → Option (List Char)
  | [] => tryKeyAt key []
  | c :: rest =>
    match tryKeyAt key (c :: rest) with
    | some v => some v
    | none => reSearchKeyLine key rest

/-- One attempt of r'seq:\s*(\d+)': after the literal, skip the maximal
whitespace run; the next character must be a digit, and group 1 is the maximal
digit run. -/
def trySeqAt (s : List Char) : Option Nat :=
  match chopLit "seq:".data s with
  | none => none
  | some rest =>
    let r := rest.dropWhile pyIsSpace
    let ds := r.takeWhile pyIsDigit
    if ds.isEmpty then none else some (natOfDigits ds)

/-- Embeds re.search(r'seq:\s*(\d+)', meta_content) (main.py line 41),
already converted by int() as on line 99. -/
def reSearchSeq : List Char → Option Nat
  | [] => trySeqAt []
  | c :: rest =>
    match trySeqAt (c :: rest) with
    | some n => some n
    | none => reSearchSeq rest

/-- One attempt of r'^url:\s*(.+)$' (MULTILINE) at a line-start position:
after the literal, the greedy \s* consumes whitespace (backtracking until the
following (.+) can take at least one non-newline character before the next
newline or the end). -/
def tryUrlAt (s : List Char) : Option (List Char) :=
  match chopLit "url:".data s with
  | none => none
  | some rest =>
    let w := rest.takeWhile pyIsSpace
    let afterW := rest.dropWhile pyIsSpace
    match afterW with
    | _ :: _ => some (afterW.takeWhile (· ≠ '\n'))
    | [] =>
      -- End of input after the whitespace run: backtrack \s* to the last
      -- position inside the run holding a non-newline character.
      match w.reverse.dropWhile (· = '\n') with
      | [] => none
      | c :: _ => some [c]

/-- Embeds re.search(r'^url:\s*(.+)$', method_content, re.MULTILINE)
(main.py line 51): attempts are made only at the start of the string or
immediately after a newline. -/
def reSearchUrl : Bool → List Char → Option (List Char)
  | atStart, [] => if atStart then tryUrlAt [] else none
  | atStart, c :: rest =>
    match (if atStart then tryUrlAt (c :: rest) else none) with
    | some v => some v
    | none => reSearchUrl (c = '\n') rest

/-- One attempt of r'body:(\w+)\s*\{([\s\S]*?)\}': after the literal, group 1
is the maximal non-empty word-character run, then whitespace, a left brace and
the body up to the first right brace. -/
def tryBodyAt (s : List Char) : Option (List Char × List Char) :=
  match chopLit "body:".data s with
  | none => none
  | some rest =>
    let bt := rest.takeWhile pyIsWord
    if bt.isEmpty then none
    else
      match wsBraceBody (rest.dropWhile pyIsWord) with
      | some body => some (bt, body)
      | none => none

/-- Embeds re.search(r'body:(\w+)\s*\{([\s\S]*?)\}', content, re.DOTALL)
(main.py line 76). -/
def reSearchBody : List Char → Option (List Char × List Char)
  | [] => tryBodyAt []
  | c :: rest =>
    match tryBodyAt (c :: rest) with
    | some r => some r
    | none => reSearchBody rest

/-- Embeds re.search(r'\{([\s\S]*)\}', raw_body, re.DOTALL) (main.py line 84)
and returns group 0: from the leftmost left brace that still has a right brace
after it, through the last right brace of the input (the starred class is
greedy). -/
def findJsonSpan : List Char → Option (List Char)
  | [] => none
  | c :: rest =>
    if c = lbrace && rest.any (· = rbrace) then
      some (c :: (rest.reverse.dropWhile (· ≠ rbrace)).reverse)
    else
      findJsonSpan rest

/-! ## JSON model

parse_bru_file calls the Python standard library (json.loads /
json.dumps(indent=2)).  The functions below model that library: strict-mode
decoding of null/true/false, integers, strings with the standard escapes
(including surrogate pairs), arrays and objects (duplicate keys collapse as in
a Python dict: last value wins, first position kept), and the indent-2 encoder
with ensure_ascii.  Outside the model (the modelled loads fails where Python
would succeed): fractional/exponent number literals, Infinity/NaN, and lone
surrogates, none of which a Lean Char/Int value can hold. -/

/-- JSON whitespace accepted by the decoder. -/
def jsonWs (c : Char) : Bool := c = ' ' || c = '\t' || c = '\n' || c = '\r'

inductive Json where
  | null
  | bool (b : Bool)
  | num (n : Int)
  | str (s : String)
  | arr (elems : List Json)
  | obj (members : List (String × Json))

/-- Hexadecimal digit value. -/
def hexVal (c : Char) : Option Nat :=
  if '0' ≤ c ∧ c ≤ '9' then some (c.toNat - 48)
  else if 'a' ≤ c ∧ c ≤ 'f' then some (c.toNat - 87)
  else if 'A' ≤ c ∧ c ≤ 'F' then some (c.toNat - 55)
  else none

/-- Decode a JSON string body (the opening quote already consumed): returns
the decoded characters and the input after the closing quote.  Strict mode:
raw control characters below 0x20 are rejected. -/
def jString : List Char → Option (List Char × List Char)
  | [] => none
  | c :: r =>
    if c = '"' then some ([], r)
    else if c = '\\' then
      match r with
      | [] => none
      | e :: r2 =>
        if e = '"' || e = '\\' || e = '/' then
          (jString r2).map (fun p => (e :: p.1, p.2))
        else if e = 'b' then (jString r2).map (fun p => (Char.ofNat 8 :: p.1, p.2))
        else if e = 'f' then (jString r2).map (fun p => (Char.ofNat 12 :: p.1, p.2))
        else if e = 'n' then (jString r2).map (fun p => ('\n' :: p.1, p.2))
        else if e = 'r' then (jString r2).map (fun p => ('\r' :: p.1, p.2))
        else if e = 't' then (jString r2).map (fun p => ('\t' :: p.1, p.2))
        else if e = 'u' then
          match r2 with
          | h1 :: h2 :: h3 :: h4 :: r3 =>
            match hexVal h1, hexVal h2, hexVal h3, hexVal h4 with
            | some a, some b, some c1, some d =>
              let n := ((a * 16 + b) * 16 + c1) * 16 + d
              if 55296 ≤ n ∧ n ≤ 56319 then
                -- High surrogate: require a following \uXXXX low surrogate.
                match r3 with
                | '\\' :: 'u' :: k1 :: k2 :: k3 :: k4 :: r4 =>
                  match hexVal k1, hexVal k2, hexVal k3, hexVal k4 with
                  | some a2, some b2, some c2, some d2 =>
                    let m := ((a2 * 16 + b2) * 16 + c2) * 16 + d2
                    if 56320 ≤ m ∧ m ≤ 57343 then
                      (jString r4).map (fun p =>
                        (Char.ofNat (65536 + (n - 55296) * 1024 + (m - 56320)) :: p.1, p.2))
                    else none
                  | _, _, _, _ => none
                | _ => none
              else if 56320 ≤ n ∧ n ≤ 57343 then none
              else (jString r3).map (fun p => (Char.ofNat n :: p.1, p.2))
            | _, _, _, _ => none
          | _ => none
        else none
    else if c.toNat < 32 then none
    else (jString r).map (fun p => (c :: p.1, p.2))

/-- Decode an unsigned JSON integer: a single 0, or a nonzero digit followed
by further digits.  A following '.', 'e' or 'E' (a float literal, which the
model excludes) rejects. -/
def jNumMag : List Char → Option (Nat × List Char)
  | [] => none
  | c :: r =>
    if c = '0' then
      match r with
      | d :: _ => if d = '.' || d = 'e' || d = 'E' then none else some (0, r)
      | [] => some (0, r)
    else if pyIsDigit c then
      let rest := r.dropWhile pyIsDigit
      match rest with
      | d :: _ =>
        if d = '.' || d = 'e' || d = 'E' then none
        else some (natOfDigits (c :: r.takeWhile pyIsDigit), rest)
      | [] => some (natOfDigits (c :: r.takeWhile pyIsDigit), rest)
    else none

/-- Decode a JSON integer with optional leading minus. -/
def jNumber : List Char → Option (Int × List Char)
  | '-' :: r => (jNumMag r).map (fun p => (-(p.1 : Int), p.2))
  | r => (jNumMag r).map (fun p => ((p.1 : Int), p.2))

/-- Python-dict insertion for object members: last value wins, the key keeps
the position of its first occurrence. -/
def jInsert : List (String × Json) → String → Json → List (String × Json)
  | [], k, v => [(k, v)]
  | (k', v') :: rest, k, v =>
    if k' = k then (k', v) :: rest else (k', v') :: jInsert rest k v

mutual

/-- Decode one JSON value (leading whitespace allowed), with fuel. -/
def jValue : Nat → List Char → Option (Json × List Char)
  | 0, _ => none
  | f + 1, s =>
    match s.dropWhile jsonWs with
    | [] => none
    | c :: r =>
      if c = '"' then (jString r).map (fun p => (Json.str (String.mk p.1), p.2))
      else if c = lbrace then
        match r.dropWhile jsonWs with
        | [] => none
        | d :: r2 =>
          if d = rbrace then some (Json.obj [], r2)
          else if d = '"' then (jMembers f r2 []).map (fun p => (Json.obj p.1, p.2))
          else none
      else if c = '[' then
        match r.dropWhile jsonWs with
        | [] => none
        | d :: r2 =>
          if d = ']' then some (Json.arr [], r2)
          else (jItems f (d :: r2) []).map (fun p => (Json.arr p.1, p.2))
      else if c = 't' then (chopLit "rue".data r).map (fun rest => (Json.bool true, rest))
      else if c = 'f' then (chopLit "alse".data r).map (fun rest => (Json.bool false, rest))
      else if c = 'n' then (chopLit "ull".data r).map (fun rest => (Json.null, rest))
      else (jNumber (c :: r)).map (fun p => (Json.num p.1, p.2))

/-- Decode object members; the input starts right after the opening quote of
the next key. -/
def jMembers : Nat → List Char → List (String × Json) → Option (List (String × Json) × List Char)
  | 0, _, _ => none
  | f + 1, s, acc =>
    match jString s with
    | none => none
    | some (k, r1) =>
      match r1.dropWhile jsonWs with
      | ':' :: r2 =>
        match jValue f r2 with
        | none => none
        | some (v, r3) =>
          let acc2 := jInsert acc (String.mk k) v
          match r3.dropWhile jsonWs with
          | [] => none
          | d :: r4 =>
            if d = rbrace then some (acc2, r4)
            else if d = ',' then
              match r4.dropWhile jsonWs with
              | '"' :: r5 => jMembers f r5 acc2
              | _ => none
            else none
      | _ => none

/-- Decode array items; the input starts at the first character of the next
value. -/
def jItems : Nat → List Char → List Json → Option (List Json × List Char)
  | 0, _, _ => none
  | f + 1, s, acc =>
    match jValue f s with
    | none => none
    | some (v, r1) =>
      match r1.dropWhile jsonWs with
      | [] => none
      | d :: r2 =>
        if d = ']' then some (acc ++ [v], r2)
        else if d = ',' then jItems f r2 (acc ++ [v])
        else none

end

/-- Models json.loads: decode one value, then allow only trailing whitespace
("Extra data" otherwise). -/
def json_loads (s : String) : Option Json :=
  match jValue (2 * s.data.length + 2) s.data with
  | none => none
  | some (v, rest) => if (rest.dropWhile jsonWs).isEmpty then some v else none

/-- Two spaces of indentation per level, as produced by indent=2. -/
def jIndentStr (level : Nat) : String := String.mk (List.replicate (2 * level) ' ')

/-- Lower-case hexadecimal digit. -/
def hexDigitLower (n : Nat) : Char :=
  if n < 10 then Char.ofNat (48 + n) else Char.ofNat (87 + n)

/-- Four lower-case hexadecimal digits, as in a \uXXXX escape. -/
def hex4 (n : Nat) : String :=
  String.mk [hexDigitLower (n / 4096 % 16), hexDigitLower (n / 256 % 16),
             hexDigitLower (n / 16 % 16), hexDigitLower (n % 16)]

/-- The ensure_ascii character escaping of json.dumps: printable ASCII other
than quote and backslash is literal, the short escapes are used where they
exist, and everything else becomes \uXXXX (surrogate pairs above the BMP). -/
def jEscapeChar (c : Char) : String :=
  if c = '"' then "\\\""
  else if c = '\\' then "\\\\"
  else if c = '\n' then "\\n"
  else if c = '\r' then "\\r"
  else if c = '\t' then "\\t"
  else if c = Char.ofNat 8 then "\\b"
  else if c = Char.ofNat 12 then "\\f"
  else if 32 ≤ c.toNat ∧ c.toNat ≤ 126 then String.singleton c
  else if c.toNat < 65536 then "\\u" ++ hex4 c.toNat
  else "\\u" ++ hex4 (55296 + (c.toNat - 65536) / 1024)
       ++ "\\u" ++ hex4 (56320 + (c.toNat - 65536) % 1024)

/-- A JSON string literal as emitted by json.dumps. -/
def jQuote (s : String) : String :=
  "\"" ++ String.join (s.data.map jEscapeChar) ++ "\""

/-- Decimal rendering of an integer, as Python prints int. -/
def intDec (n : Int) : String :=
  if n < 0 then "-" ++ String.mk (Nat.toDigits 10 n.natAbs)
  else String.mk (Nat.toDigits 10 n.natAbs)

mutual

/-- Models json.dumps(v, indent=2) at nesting depth lvl. -/
def jDump : Json → Nat → String
  | Json.null, _ => "null"
  | Json.bool true, _ => "true"
  | Json.bool false, _ => "false"
  | Json.num n, _ => intDec n
  | Json.str s, _ => jQuote s
  | Json.arr [], _ => "[]"
  | Json.arr (x :: xs), lvl =>
      "[\n" ++ String.intercalate ",\n" (jDumpItems (x :: xs) (lvl + 1))
      ++ "\n" ++ jIndentStr lvl ++ "]"
  | Json.obj [], _ => "\x7b\x7d"
  | Json.obj (m :: ms), lvl =>
      "\x7b\n" ++ String.intercalate ",\n" (jDumpMembers (m :: ms) (lvl + 1))
      ++ "\n" ++ jIndentStr lvl ++ "\x7d"

/-- Indented renderings of array items. -/
def jDumpItems : List Json → Nat → List String
  | [], _ => []
  | x :: xs, lvl => (jIndentStr lvl ++ jDump x lvl) :: jDumpItems xs lvl

/-- Indented renderings of object members (key, colon, space, value). -/
def jDumpMembers : List (String × Json) → Nat → List String
  | [], _ => []
  | (k, v) :: ms, lvl =>
      (jIndentStr lvl ++ jQuote k ++ ": " ++ jDump v lvl) :: jDumpMembers ms lvl

end

/-- Models json.dumps(parsed_json, indent=2) (main.py line 88). -/
def json_dumps (v : Json) : String := jDump v 0

/-! ## The extractor -/

/-- The record produced by parse_bru_file (main.py lines 97-106); the Python
dict with its fixed eight keys. -/
structure RequestRecord where
  name : String
  seq : Int
  method : String
  url : String
  path_params : List (String × String)
  query_params : List (String × String)
  headers : List (String × String)
  body : String
deriving DecidableEq

/-- Python-dict assignment params[key] = value for the ordered string map:
the value of an existing key is overwritten in place, a new key is appended. -/
def dictInsert : List (String × String) → String → String → List (String × String)
  | [], k, v => [(k, v)]
  | (k', v') :: rest, k, v =>
    if k' = k then (k', v) :: rest else (k', v') :: dictInsert rest k v

/-- Embeds parse_params_block (main.py lines 54-68): find the named block
anywhere in the text, strip its body, split on newlines, and for every
stripped line containing a colon, split on the first colon and insert the
stripped key and value into the ordered map. -/
def parse_params_block (block_name : String) (text : String) : List (String × String) :=
  match reSearchBlock block_name.data text.data with
  | none => []
  | some bc =>
    (splitOnNl (pyStrip bc)).foldl
      (fun params line =>
        let l := pyStrip line
        if l.any (· = ':') then
          dictInsert params (pyStripS (l.takeWhile (· ≠ ':')))
            (pyStripS ((l.dropWhile (· ≠ ':')).drop 1))
        else params)
      []

/-- Embeds parse_bru_file (main.py lines 31-106) on the file's text content.
The Python try/except only catches file-system faults (unreadable files),
which are outside this pure text-level model. -/
def parse_bru_file (content : String) : Option RequestRecord :=
  match reSearchBlock "meta".data content.data with
  | none => none
  | some meta_content =>
    let name_match := reSearchKeyLine "name:".data meta_content
    let seq_match := reSearchSeq meta_content
    match reSearchMethod content.data with
    | none => none
    | some (mtag, method_content) =>
      let url_match := reSearchUrl true method_content
      let body_content : String :=
        match reSearchBody content.data with
        | none => ""
        | some (btype, bc) =>
          let raw_body := pyStripS bc
          if String.mk (btype.map Char.toLower) = "json" then
            match findJsonSpan raw_body.data with
            | some json_str =>
              match json_loads (String.mk json_str) with
              | some parsed => "```json\n" ++ json_dumps parsed ++ "\n```"
              | none => "```\n" ++ raw_body ++ "\n```"
            | none => "```json\n" ++ raw_body ++ "\n```"
          else "```" ++ String.mk btype ++ "\n" ++ raw_body ++ "\n```"
      some {
        name := match name_match with
                | some v => pyStripS v
                | none => "Unnamed Request"
        seq := match seq_match with | some n => (n : Int) | none => 999
        method := String.mk (mtag.map Char.toUpper)
        url := match url_match with | some u => pyStripS u | none => "No URL found"
        path_params := parse_params_block "params:path" content
        query_params := parse_params_block "params:query" content
        headers := parse_params_block "headers" content
        body := body_content }

/-! ## The renderer -/

/-- The table helper generate_table (main.py lines 119-127) as the list of
lines it appends: nothing for an empty map, else the bold title, the header
and separator rows, one row per entry in map order, and a blank line. -/
def generate_table (title : String) (params : List (String × String)) : List String :=
  if params.isEmpty then []
  else
    ("**" ++ title ++ "**\n")
      :: "| Name | Value / Description |"
      :: "|------|---------------------|"
      :: params.map (fun kv => "| `" ++ kv.1 ++ "` | " ++ kv.2 ++ " |")
      ++ [""]

/-- Python's "\n".join. -/
def joinNl : List String → String
  | [] => ""
  | [a] => a
  | a :: b :: rest => a ++ "\n" ++ joinNl (b :: rest)

/-- Embeds generate_request_markdown (main.py lines 111-137): the accumulated
md list joined with newlines, with the final horizontal rule appended. -/
def generate_request_markdown (r : RequestRecord) : String :=
  joinNl
    (("### " ++ r.name ++ "\n")
      :: ("**\x60" ++ r.method ++ "\x60** \x60" ++ r.url ++ "\x60\n")
      :: (generate_table "Path Parameters" r.path_params
          ++ generate_table "Query Parameters" r.query_params
          ++ generate_table "Headers" r.headers
          ++ (if r.body ≠ "" then ["**Body**\n", r.body] else [])))
    ++ "\n---\n"

/-! ## Per-folder assembly -/

/-- The sort key comparison of main.py line 221: ascending seq.  Python's
list.sort is stable; List.insertionSort with this relation is the stable
ascending sort (proved below). -/
def seqLe (a b : RequestRecord) : Prop := a.seq ≤ b.seq

instance : DecidableRel seqLe := fun a b => inferInstanceAs (Decidable (a.seq ≤ b.seq))

/-- Models the per-folder pipeline of main (main.py lines 210-221): parse
every file's text, keep the successful records in discovery order, and sort
them by seq. -/
def processFolder (texts : List String) : List RequestRecord :=
  List.insertionSort seqLe (texts.filterMap parse_bru_file)

/-! ## Auxiliary definitions used to state the claims -/

/-- Modelled from the spec: the spec asserts that the name:/seq: lookups in
the meta block are "line-anchored matches".  This is that asserted variant
(the key may match only at the start of the string or right after a newline),
stated for comparison with the unanchored reSearchKeyLine the code uses. -/
def reSearchKeyAnchored (key : List Char) : Bool → List Char → Option (List Char)
  | atStart, [] => if atStart then tryKeyAt key [] else none
  | atStart, c :: rest =>
    match (if atStart then tryKeyAt key (c :: rest) else none) with
    | some v => some v
    | none => reSearchKeyAnchored key (c = '\n') rest

/-- The (key, value) entry a single block line contributes: one entry when the
stripped line contains a colon, none otherwise. -/
def entryOfLine (line : List Char) : List (String × String) :=
  let l := pyStrip line
  if l.any (· = ':') then
    [(pyStripS (l.takeWhile (· ≠ ':')), pyStripS ((l.dropWhile (· ≠ ':')).drop 1))]
  else []

/-- The fold step of parse_params_block over one line. -/
def lineStep (params : List (String × String)) (line : List Char) : List (String × String) :=
  let l := pyStrip line
  if l.any (· = ':') then
    dictInsert params (pyStripS (l.takeWhile (· ≠ ':')))
      (pyStripS ((l.dropWhile (· ≠ ':')).drop 1))
  else params

/-- Folding dictInsert over a list of entries. -/
def entryFold (es : List (String × String)) (acc : List (String × String)) :
    List (String × String) :=
  es.foldl (fun ps kv => dictInsert ps kv.1 kv.2) acc

/-- The colon-line entries of a block body, in declaration order, duplicates
kept: the per-line data of parse_params_block before dict insertion. -/
def entriesOfBlock (bc : List Char) : List (String × String) :=
  ((splitOnNl (pyStrip bc)).map entryOfLine).flatten

/-- Keys in order of first occurrence. -/
def firstOccurs (ks : List String) : List String :=
  ks.foldl (fun acc k => if k ∈ acc then acc else acc ++ [k]) []

/-- Concatenation of a list of strings. -/
def strConcat : List String → String
  | [] => ""
  | a :: rest => a ++ strConcat rest

/-- Each element prefixed with a newline and concatenated: the contribution of
the tail of the md list under "\n".join. -/
def joinSeg (l : List String) : String := strConcat (l.map (fun s => "\n" ++ s))

/-- Spec-shaped closed form of a rendered parameter table: empty for an empty
map, else the bold title, the fixed two header rows, and one table row per
entry in map order, followed by a blank line. -/
def tableSection (title : String) (ps : List (String × String)) : String :=
  if ps.isEmpty then ""
  else
    "\n" ++ "**" ++ title ++ "**\n" ++ "\n" ++ "| Name | Value / Description |"
      ++ "\n" ++ "|------|---------------------|"
      ++ strConcat (ps.map (fun kv => "\n| \x60" ++ kv.1 ++ "\x60 | " ++ kv.2 ++ " |"))
      ++ "\n"

/-- Spec-shaped closed form of the body section: nothing for an empty body,
else the Body label followed by the pre-rendered fence. -/
def bodySection (b : String) : String :=
  if b = "" then "" else "\n" ++ "**Body**\n" ++ "\n" ++ b

/-! ## Characterization helpers for parse_bru_file -/

/-- The body field of the record, as computed on main.py lines 74-94. -/
def bodyOf (content : String) : String :=
  match reSearchBody content.data with
  | none => ""
  | some (btype, bc) =>
    let raw_body := pyStripS bc
    if String.mk (btype.map Char.toLower) = "json" then
      match findJsonSpan raw_body.data with
      | some json_str =>
        match json_loads (String.mk json_str) with
        | some parsed => "```json\n" ++ json_dumps parsed ++ "\n```"
        | none => "```\n" ++ raw_body ++ "\n```"
      | none => "```json\n" ++ raw_body ++ "\n```"
    else "```" ++ String.mk btype ++ "\n" ++ raw_body ++ "\n```"

/-- The record parse_bru_file builds once the meta block body mc and the
method match (mtag, mcont) are in hand. -/
def mkRecord (content : String) (mc mtag mcont : List Char) : RequestRecord where
  name := match reSearchKeyLine "name:".data mc with
          | some v => pyStripS v
          | none => "Unnamed Request"
  seq := match reSearchSeq mc with | some n => (n : Int) | none => 999
  method := String.mk (mtag.map Char.toUpper)
  url := match reSearchUrl true mcont with
         | some u => pyStripS u
         | none => "No URL found"
  path_params := parse_params_block "params:path" content
  query_params := parse_params_block "params:query" content
  headers := parse_params_block "headers" content
  body := bodyOf content

theorem parse_bru_file_eq_some (t : String) (mc mtag mcont : List Char)
    (hm : reSearchBlock "meta".data t.data = some mc)
    (hh : reSearchMethod t.data = some (mtag, mcont)) :
    parse_bru_file t = some (mkRecord t mc mtag mcont) := by
  unfold parse_bru_file
  rw [hm, hh]
  rfl

theorem parse_bru_file_inv (t : String) (r : RequestRecord)
    (h : parse_bru_file t = some r) :
    ∃ mc mtag mcont,
      reSearchBlock "meta".data t.data = some mc ∧
      reSearchMethod t.data = some (mtag, mcont) ∧
      r = mkRecord t mc mtag mcont := by
  unfold parse_bru_file at h
  cases hm : reSearchBlock "meta".data t.data with
  | none => rw [hm] at h; exact absurd h (by simp)
  | some mc =>
    rw [hm] at h
    cases hh : reSearchMethod t.data with
    | none => rw [hh] at h; exact absurd h (by simp)
    | some p =>
      obtain ⟨mtag, mcont⟩ := p
      rw [hh] at h
      refine ⟨mc, mtag, mcont, rfl, rfl, ?_⟩
      have := parse_bru_file_eq_some t mc mtag mcont hm hh
      simp only [Option.some.injEq] at h
      exact h.symm

theorem parse_bru_file_none_iff (t : String) :
    parse_bru_file t = none ↔
      reSearchBlock "meta".data t.data = none ∨ reSearchMethod t.data = none := by
  unfold parse_bru_file
  cases hm : reSearchBlock "meta".data t.data with
  | none => simp
  | some mc =>
    cases hh : reSearchMethod t.data with
    | none => simp
    | some p => obtain ⟨mtag, mcont⟩ := p; simp

/-! ## The method tag always upper-cases to one of the seven verbs -/

theorem ciChop_map_toUpper :
    ∀ (pat s m rest : List Char), ciChop pat s = some (m, rest) →
      (∀ p ∈ pat, p.toUpper.toUpper = p.toUpper) →
      m.map Char.toUpper = pat.map Char.toUpper := by
  intro pat
  induction pat with
  | nil =>
    intro s m rest h _
    simp only [ciChop, Option.some.injEq, Prod.mk.injEq] at h
    rcases h with ⟨rfl, rfl⟩
    rfl
  | cons p ps ih =>
    intro s m rest h hup
    cases s with
    | nil => simp [ciChop] at h
    | cons c cs =>
      rw [ciChop] at h
      split at h
      case isTrue hc =>
        cases hm : ciChop ps cs with
        | none => rw [hm] at h; simp at h
        | some q =>
          obtain ⟨m1, r1⟩ := q
          rw [hm] at h
          simp only [Option.map, Option.some.injEq, Prod.mk.injEq] at h
          rcases h with ⟨rfl, rfl⟩
          have hts := ih cs m1 r1 hm (fun x hx => hup x (List.mem_cons_of_mem _ hx))
          rw [List.map_cons, List.map_cons, hts]
          congr 1
          simp only [Bool.or_eq_true, decide_eq_true_eq] at hc
          rcases hc with rfl | rfl
          · rfl
          · exact hup p (List.mem_cons_self ..)
      case isFalse => simp at h

theorem tryAltsAt_toUpper (alts : List (List Char)) (s m b : List Char)
    (h : tryAltsAt alts s = some (m, b))
    (hup : ∀ a ∈ alts, ∀ p ∈ a, p.toUpper.toUpper = p.toUpper) :
    m.map Char.toUpper ∈ alts.map (fun a => a.map Char.toUpper) := by
  induction alts with
  | nil => simp [tryAltsAt] at h
  | cons a as ih =>
    rw [tryAltsAt] at h
    cases hc : ciChop a s with
    | none =>
      rw [hc] at h
      dsimp only at h
      exact List.mem_cons_of_mem _
        (ih h (fun x hx => hup x (List.mem_cons_of_mem _ hx)))
    | some q =>
      obtain ⟨m1, r1⟩ := q
      rw [hc] at h
      dsimp only at h
      cases hw : wsBraceBody r1 with
      | none =>
        rw [hw] at h
        dsimp only at h
        exact List.mem_cons_of_mem _
          (ih h (fun x hx => hup x (List.mem_cons_of_mem _ hx)))
      | some body =>
        rw [hw] at h
        simp only [Option.some.injEq, Prod.mk.injEq] at h
        obtain ⟨h1, _⟩ := h
        have hmu := ciChop_map_toUpper a s m1 r1 hc (hup a (List.mem_cons_self ..))
        simp only [List.map_cons]
        rw [← h1, hmu]
        exact List.mem_cons_self ..

theorem reSearchMethod_toUpper (s m b : List Char)
    (h : reSearchMethod s = some (m, b)) :
    String.mk (m.map Char.toUpper) ∈
      (["GET", "POST", "PUT", "PATCH", "DELETE", "OPTIONS", "HEAD"] : List String) := by
  have hup : ∀ a ∈ methodAlts, ∀ p ∈ a, p.toUpper.toUpper = p.toUpper := by decide
  have hm : m.map Char.toUpper ∈ methodAlts.map (fun a => a.map Char.toUpper) := by
    induction s with
    | nil =>
      rw [reSearchMethod] at h
      exact tryAltsAt_toUpper _ _ _ _ h hup
    | cons c cs ih =>
      rw [reSearchMethod] at h
      cases ht : tryAltsAt methodAlts (c :: cs) with
      | none => rw [ht] at h; exact ih h
      | some q =>
        rw [ht] at h
        obtain ⟨m1, r1⟩ := q
        simp only [Option.some.injEq, Prod.mk.injEq] at h
        rcases h with ⟨rfl, rfl⟩
        exact tryAltsAt_toUpper _ _ _ _ ht hup
  have hconc : methodAlts.map (fun a => a.map Char.toUpper) =
      ["GET".data, "POST".data, "PUT".data, "PATCH".data,
       "DELETE".data, "OPTIONS".data, "HEAD".data] := by decide
  rw [hconc] at hm
  simp only [List.mem_cons, List.not_mem_nil, or_false] at hm
  rcases hm with h1 | h1 | h1 | h1 | h1 | h1 | h1
  all_goals rw [h1]
  all_goals decide

/-! ## Claim C1 -/

/-- C1, counterexample: on the input that literally contains the two blocks
the claim quotes — with "url: /foo" inside the braces on the same line — the
url field is the "No URL found" placeholder, not "/foo", because the url
pattern is anchored at the start of a line. -/
theorem c1_counterexample :
    (parse_bru_file "meta \x7b name: X\nseq: 3 \x7d\nget \x7b url: /foo \x7d").map (fun r => r.url)
      = some "No URL found" ∧ ("No URL found" : String) ≠ "/foo" := by
  exact ⟨rfl, by decide⟩

/-- C1, amended: with the url line of the get block placed at the start of
its own line (get followed by a brace, then "url: /foo" on an unindented
line), the extractor returns name "X", seq 3, method "GET", url "/foo", the
three parameter maps empty and the body empty. -/
theorem c1_amended_theorem :
    parse_bru_file "meta \x7b name: X\nseq: 3 \x7d\nget \x7b\nurl: /foo\n\x7d" =
      some { name := "X", seq := 3, method := "GET", url := "/foo",
             path_params := [], query_params := [], headers := [], body := "" } := by
  rfl

/-! ## Claim C2 -/

/-- C2: the extractor returns no record exactly when the text has no meta
block or no recognized HTTP-method block, and every record it does return
carries one of the seven upper-cased verbs as its method — a record with an
empty or unrecognized method is never constructed. -/
theorem c2_theorem (t : String) :
    (parse_bru_file t = none ↔
      reSearchBlock "meta".data t.data = none ∨ reSearchMethod t.data = none) ∧
    (∀ r, parse_bru_file t = some r →
      r.method ∈ (["GET", "POST", "PUT", "PATCH", "DELETE", "OPTIONS", "HEAD"] : List String)) := by
  refine ⟨parse_bru_file_none_iff t, ?_⟩
  intro r hr
  obtain ⟨mc, mtag, mcont, hm, hh, rfl⟩ := parse_bru_file_inv t r hr
  exact reSearchMethod_toUpper _ _ _ hh

/-- C2, witness at a concrete input. -/
theorem c2_witness :
    ({ name := "X", seq := 3, method := "GET", url := "No URL found",
       path_params := [], query_params := [], headers := [], body := "" } : RequestRecord).method
      ∈ (["GET", "POST", "PUT", "PATCH", "DELETE", "OPTIONS", "HEAD"] : List String) :=
  have h := c2_theorem "meta \x7b name: X\nseq: 3 \x7d\nget \x7b url: /foo \x7d"
  h.2 _ rfl

/-! ## Claim C3 -/

/-- C3, counterexample: the name:/seq: lookups are not line-anchored.  In a
meta block whose only line is "filename: Bob", a line-anchored match for
name: finds nothing, yet the extractor returns name "Bob" (matching inside
the word "filename:") instead of the default. -/
theorem c3_counterexample :
    reSearchBlock "meta".data ("meta \x7b\nfilename: Bob\n\x7d\nget \x7b\nurl: /x\n\x7d").data
      = some "\nfilename: Bob\n".data ∧
    reSearchKeyAnchored "name:".data true "\nfilename: Bob\n".data = none ∧
    (parse_bru_file "meta \x7b\nfilename: Bob\n\x7d\nget \x7b\nurl: /x\n\x7d").map (fun r => r.name)
      = some "Bob" ∧ ("Bob" : String) ≠ "Unnamed Request" := by
  exact ⟨rfl, rfl, rfl, by decide⟩

/-- C3, amended: name: and seq: are extracted from the meta block by
unanchored substring matches (an occurrence anywhere in the block, even inside
a longer word, is used); when the name pattern finds nothing the name defaults
to "Unnamed Request", and when the seq pattern finds no digits the seq
defaults to 999. -/
theorem c3_amended_theorem (t : String) (mc : List Char) (r : RequestRecord)
    (hm : reSearchBlock "meta".data t.data = some mc)
    (hr : parse_bru_file t = some r) :
    r.name = (match reSearchKeyLine "name:".data mc with
              | some v => pyStripS v
              | none => "Unnamed Request") ∧
    r.seq = (match reSearchSeq mc with | some n => (n : Int) | none => 999) := by
  obtain ⟨mc', mtag, mcont, hm', hh', rfl⟩ := parse_bru_file_inv t r hr
  rw [hm] at hm'
  injection hm' with hmc
  subst hmc
  exact ⟨rfl, rfl⟩

/-- C3, witness: a meta block with neither a name: nor a seq: line yields the
two documented defaults. -/
theorem c3_witness :
    ({ name := "Unnamed Request", seq := 999, method := "GET", url := "/a",
       path_params := [], query_params := [], headers := [], body := "" } : RequestRecord).name
      = (match reSearchKeyLine "name:".data "\nx\n".data with
         | some v => pyStripS v
         | none => "Unnamed Request") ∧
    ({ name := "Unnamed Request", seq := 999, method := "GET", url := "/a",
       path_params := [], query_params := [], headers := [], body := "" } : RequestRecord).seq
      = (match reSearchSeq "\nx\n".data with | some n => (n : Int) | none => 999) :=
  c3_amended_theorem "meta \x7b\nx\n\x7d\nget \x7b\nurl: /a\n\x7d" "\nx\n".data _ rfl rfl

/-! ## Claim C4 -/

/-- C4: the method is the upper-casing of the leftmost case-insensitive match
of one of the seven verbs followed by a brace block (hence always one of the
seven upper-case verbs), and the url is the line-anchored url: match inside
that block's body, defaulting to "No URL found" when absent. -/
theorem c4_theorem (t : String) (r : RequestRecord) (h : parse_bru_file t = some r) :
    ∃ mtag mcont, reSearchMethod t.data = some (mtag, mcont) ∧
      r.method = String.mk (mtag.map Char.toUpper) ∧
      r.method ∈ (["GET", "POST", "PUT", "PATCH", "DELETE", "OPTIONS", "HEAD"] : List String) ∧
      r.url = (match reSearchUrl true mcont with
               | some u => pyStripS u
               | none => "No URL found") := by
  obtain ⟨mc, mtag, mcont, hm, hh, rfl⟩ := parse_bru_file_inv t r h
  exact ⟨mtag, mcont, hh, rfl, reSearchMethod_toUpper _ _ _ hh, rfl⟩

/-- C4, witness at a concrete input (the method block is written "Post" to
exercise case-insensitive matching and upper-casing). -/
theorem c4_witness :
    ∃ mtag mcont,
      reSearchMethod ("meta \x7b name: X \x7d\nPost \x7b\nurl: /foo\n\x7d").data = some (mtag, mcont) ∧
      ({ name := "X", seq := 999, method := "POST", url := "/foo",
         path_params := [], query_params := [], headers := [],
         body := "" } : RequestRecord).method = String.mk (mtag.map Char.toUpper) ∧
      ({ name := "X", seq := 999, method := "POST", url := "/foo",
         path_params := [], query_params := [], headers := [],
         body := "" } : RequestRecord).method
        ∈ (["GET", "POST", "PUT", "PATCH", "DELETE", "OPTIONS", "HEAD"] : List String) ∧
      ({ name := "X", seq := 999, method := "POST", url := "/foo",
         path_params := [], query_params := [], headers := [],
         body := "" } : RequestRecord).url
        = (match reSearchUrl true mcont with
           | some u => pyStripS u
           | none => "No URL found") :=
  c4_theorem "meta \x7b name: X \x7d\nPost \x7b\nurl: /foo\n\x7d" _ rfl

/-! ## Claim C10 -/

/-- C10: every record the extractor returns has a method among the seven
upper-case verbs and a non-negative seq (all eight fields exist by the record
type itself), and a meta block whose seq: pattern matches no digits — e.g. a
non-numeric seq: value — yields the sentinel 999. -/
theorem c10_theorem (t : String) (r : RequestRecord) (h : parse_bru_file t = some r) :
    r.method ∈ (["GET", "POST", "PUT", "PATCH", "DELETE", "OPTIONS", "HEAD"] : List String) ∧
    0 ≤ r.seq ∧
    (∀ mc, reSearchBlock "meta".data t.data = some mc →
      reSearchSeq mc = none → r.seq = 999) := by
  obtain ⟨mc, mtag, mcont, hm, hh, rfl⟩ := parse_bru_file_inv t r h
  refine ⟨reSearchMethod_toUpper _ _ _ hh, ?_, ?_⟩
  · show (0 : Int) ≤ (match reSearchSeq mc with | some n => ((n : Nat) : Int) | none => (999 : Int))
    cases reSearchSeq mc with
    | none => norm_num
    | some n => exact Int.ofNat_nonneg n
  · intro mc' hm' hs
    rw [hm] at hm'
    injection hm' with hmc
    rw [← hmc] at hs
    show ((match reSearchSeq mc with
            | some n => ((n : Nat) : Int)
            | none => (999 : Int)) : Int) = (999 : Int)
    rw [hs]

/-- C10, witness: a file whose meta block says "seq: abc" gets seq 999. -/
theorem c10_witness :
    ({ name := "W", seq := 999, method := "GET", url := "/w",
       path_params := [], query_params := [], headers := [],
       body := "" } : RequestRecord).method
      ∈ (["GET", "POST", "PUT", "PATCH", "DELETE", "OPTIONS", "HEAD"] : List String) ∧
    (0 : Int) ≤
      ({ name := "W", seq := 999, method := "GET", url := "/w",
         path_params := [], query_params := [], headers := [],
         body := "" } : RequestRecord).seq ∧
    ({ name := "W", seq := 999, method := "GET", url := "/w",
       path_params := [], query_params := [], headers := [],
       body := "" } : RequestRecord).seq = 999 :=
  have h := c10_theorem "meta \x7b\nname: W\nseq: abc\n\x7d\nget \x7b\nurl: /w\n\x7d" _ rfl
  ⟨h.1, h.2.1, h.2.2 "\nname: W\nseq: abc\n".data rfl rfl⟩

/-! ## Ordered-map lemmas for the parameter blocks -/

theorem dictInsert_keys (ps : List (String × String)) (k v : String) :
    (dictInsert ps k v).map Prod.fst =
      if k ∈ ps.map Prod.fst then ps.map Prod.fst else ps.map Prod.fst ++ [k] := by
  induction ps with
  | nil => simp [dictInsert]
  | cons p rest ih =>
    obtain ⟨a, b⟩ := p
    by_cases hak : a = k
    · subst hak
      simp [dictInsert]
    · have hka : ¬k = a := fun hc => hak hc.symm
      simp only [dictInsert, if_neg hak, List.map_cons, ih, List.mem_cons]
      by_cases hmem : k ∈ rest.map Prod.fst
      · simp [hmem]
      · simp [hmem, hka]

theorem dictInsert_lookup (ps : List (String × String)) (k v k' : String) :
    (dictInsert ps k v).lookup k' = if k' = k then some v else ps.lookup k' := by
  induction ps with
  | nil =>
    by_cases h : k' = k
    · simp [dictInsert, List.lookup_cons, h]
    · simp [dictInsert, List.lookup_cons, beq_false_of_ne h, h]
  | cons p rest ih =>
    obtain ⟨a, b⟩ := p
    by_cases hak : a = k
    · subst hak
      by_cases h' : k' = a
      · subst h'
        simp [dictInsert, List.lookup_cons]
      · simp [dictInsert, List.lookup_cons, beq_false_of_ne h', h']
    · have hrw : dictInsert ((a, b) :: rest) k v = (a, b) :: dictInsert rest k v := by
        simp [dictInsert, hak]
      rw [hrw]
      by_cases h' : k' = a
      · subst h'
        simp [List.lookup_cons, hak]
      · simp [List.lookup_cons, beq_false_of_ne h', ih]

theorem dictInsert_notMem (ps : List (String × String)) (k v : String)
    (h : k ∉ ps.map Prod.fst) : dictInsert ps k v = ps ++ [(k, v)] := by
  induction ps with
  | nil => rfl
  | cons p rest ih =>
    obtain ⟨a, b⟩ := p
    simp only [List.map_cons, List.mem_cons] at h
    push_neg at h
    simp only [dictInsert, if_neg (fun hc : a = k => h.1 hc.symm), List.cons_append]
    rw [ih h.2]

theorem entryFold_cons (kv : String × String) (es acc : List (String × String)) :
    entryFold (kv :: es) acc = entryFold es (dictInsert acc kv.1 kv.2) := rfl

theorem entryFold_append (es fs acc : List (String × String)) :
    entryFold (es ++ fs) acc = entryFold fs (entryFold es acc) := by
  simp [entryFold, List.foldl_append]

theorem entryFold_keys (es acc : List (String × String)) :
    (entryFold es acc).map Prod.fst =
      (es.map Prod.fst).foldl (fun ks k => if k ∈ ks then ks else ks ++ [k])
        (acc.map Prod.fst) := by
  induction es generalizing acc with
  | nil => rfl
  | cons kv rest ih =>
    rw [entryFold_cons, ih, List.map_cons, List.foldl_cons, dictInsert_keys]

theorem entryFold_keys_nodup (es acc : List (String × String))
    (h : (acc.map Prod.fst).Nodup) : ((entryFold es acc).map Prod.fst).Nodup := by
  induction es generalizing acc with
  | nil => exact h
  | cons kv rest ih =>
    rw [entryFold_cons]
    apply ih
    rw [dictInsert_keys]
    split
    · exact h
    · rename_i hmem
      simp [List.nodup_append, h, hmem]

theorem lookup_append (l1 l2 : List (String × String)) (k : String) :
    (l1 ++ l2).lookup k =
      match l1.lookup k with
      | some v => some v
      | none => l2.lookup k := by
  induction l1 with
  | nil => simp
  | cons p rest ih =>
    obtain ⟨a, b⟩ := p
    by_cases h : k = a
    · subst h
      simp [List.lookup_cons]
    · simp only [List.cons_append, List.lookup_cons, beq_false_of_ne h, ih]

theorem entryFold_lookup (es acc : List (String × String)) (k : String) :
    (entryFold es acc).lookup k =
      match es.reverse.lookup k with
      | some v => some v
      | none => acc.lookup k := by
  induction es generalizing acc with
  | nil => simp [entryFold]
  | cons kv rest ih =>
    rw [entryFold_cons, ih, List.reverse_cons, lookup_append]
    cases hr : rest.reverse.lookup k with
    | some v => rfl
    | none =>
      obtain ⟨a, b⟩ := kv
      by_cases h : k = a
      · subst h
        simp [dictInsert_lookup, List.lookup_cons]
      · simp [dictInsert_lookup, List.lookup_cons, beq_false_of_ne h, h]

theorem entryFold_eq_append (es acc : List (String × String))
    (h : ((acc ++ es).map Prod.fst).Nodup) : entryFold es acc = acc ++ es := by
  induction es generalizing acc with
  | nil => simp [entryFold]
  | cons kv rest ih =>
    rw [entryFold_cons]
    have hk : kv.1 ∉ acc.map Prod.fst := by
      intro hmem
      simp only [List.map_append, List.nodup_append, List.map_cons] at h
      exact h.2.2 hmem (by simp)
    rw [dictInsert_notMem acc kv.1 kv.2 hk]
    have heta : (kv.1, kv.2) = kv := rfl
    rw [heta]
    have hrec := ih (acc ++ [kv]) (by simpa using h)
    rw [hrec]
    simp

theorem lineStep_entry (acc : List (String × String)) (line : List Char) :
    lineStep acc line = entryFold (entryOfLine line) acc := by
  simp only [lineStep, entryOfLine]
  split
  · rfl
  · rfl

theorem foldl_lineStep (lines : List (List Char)) (acc : List (String × String)) :
    lines.foldl lineStep acc = entryFold ((lines.map entryOfLine).flatten) acc := by
  induction lines generalizing acc with
  | nil => rfl
  | cons line rest ih =>
    rw [List.foldl_cons, List.map_cons, List.flatten_cons, entryFold_append,
      lineStep_entry, ih]

theorem parse_params_block_eq (n t : String) :
    parse_params_block n t =
      match reSearchBlock n.data t.data with
      | none => []
      | some bc => entryFold (entriesOfBlock bc) [] := by
  unfold parse_params_block
  cases h : reSearchBlock n.data t.data with
  | none => rfl
  | some bc =>
    show (splitOnNl (pyStrip bc)).foldl lineStep [] = entryFold (entriesOfBlock bc) []
    rw [foldl_lineStep]
    rfl

/-! ## Claim C5 -/

/-- C5: each of the three parameter maps of a record comes from searching the
whole file text for its block tag; an absent block yields the empty map, and a
present block whose colon-lines carry pairwise-distinct (trimmed) keys yields
exactly those (trimmed) key/value pairs in declaration order — lines without a
colon contribute nothing (they add no entry to entriesOfBlock by definition,
so they are absent from the result). -/
theorem c5_theorem (t : String) (r : RequestRecord) (h : parse_bru_file t = some r) :
    (r.path_params = parse_params_block "params:path" t ∧
     r.query_params = parse_params_block "params:query" t ∧
     r.headers = parse_params_block "headers" t) ∧
    (∀ tag : String, reSearchBlock tag.data t.data = none → parse_params_block tag t = []) ∧
    (∀ tag : String, ∀ bc, reSearchBlock tag.data t.data = some bc →
      ((entriesOfBlock bc).map Prod.fst).Nodup →
      parse_params_block tag t = entriesOfBlock bc) := by
  obtain ⟨mc, mtag, mcont, hm, hh, rfl⟩ := parse_bru_file_inv t r h
  refine ⟨⟨rfl, rfl, rfl⟩, ?_, ?_⟩
  · intro tag htag
    rw [parse_params_block_eq, htag]
  · intro tag bc htag hnd
    rw [parse_params_block_eq, htag]
    show entryFold (entriesOfBlock bc) [] = entriesOfBlock bc
    have := entryFold_eq_append (entriesOfBlock bc) [] (by simpa using hnd)
    simpa using this

/-- C5, witness: a headers block with two distinct keys and a colon-free line
in between; the other two tags are absent and yield empty maps. -/
theorem c5_witness :
    ({ name := "H", seq := 999, method := "GET", url := "/h",
       path_params := [], query_params := [],
       headers := [("A", "1"), ("B", "2")], body := "" } : RequestRecord).headers
      = parse_params_block "headers" "meta \x7b\nname: H\n\x7d\nget \x7b\nurl: /h\n\x7d\nheaders \x7b\nA: 1\nnocolon\nB: 2\n\x7d" ∧
    parse_params_block "params:path" "meta \x7b\nname: H\n\x7d\nget \x7b\nurl: /h\n\x7d\nheaders \x7b\nA: 1\nnocolon\nB: 2\n\x7d" = [] ∧
    parse_params_block "headers" "meta \x7b\nname: H\n\x7d\nget \x7b\nurl: /h\n\x7d\nheaders \x7b\nA: 1\nnocolon\nB: 2\n\x7d"
      = entriesOfBlock "\nA: 1\nnocolon\nB: 2\n".data :=
  have h := c5_theorem "meta \x7b\nname: H\n\x7d\nget \x7b\nurl: /h\n\x7d\nheaders \x7b\nA: 1\nnocolon\nB: 2\n\x7d" _ rfl
  ⟨h.1.2.2, h.2.1 "params:path" rfl, h.2.2 "headers" "\nA: 1\nnocolon\nB: 2\n".data rfl (by decide)⟩

/-! ## Claim C6 -/

/-- C6: in any parameter block, a key occurring on several lines appears in
the resulting map exactly once (the key list has no duplicates and lists each
key at its first occurrence), and it is bound to the value of its last line
(looking the key up equals looking it up in the reversed entry list). -/
theorem c6_theorem (tag t : String) (bc : List Char)
    (h : reSearchBlock tag.data t.data = some bc) :
    ((parse_params_block tag t).map Prod.fst).Nodup ∧
    (∀ k, (parse_params_block tag t).lookup k = (entriesOfBlock bc).reverse.lookup k) ∧
    (parse_params_block tag t).map Prod.fst = firstOccurs ((entriesOfBlock bc).map Prod.fst) := by
  rw [parse_params_block_eq, h]
  refine ⟨entryFold_keys_nodup _ _ (by simp), ?_, ?_⟩
  · intro k
    rw [entryFold_lookup]
    cases hx : (entriesOfBlock bc).reverse.lookup k with
    | some v => rfl
    | none => simp
  · rw [entryFold_keys]
    rfl

/-- C6, witness: a headers block declaring A twice keeps A once, at its first
position, bound to the later value. -/
theorem c6_witness :
    ((parse_params_block "headers" "headers \x7b\nA: 1\nA: 2\nB: 3\n\x7d").map Prod.fst).Nodup ∧
    (parse_params_block "headers" "headers \x7b\nA: 1\nA: 2\nB: 3\n\x7d").lookup "A"
      = (entriesOfBlock "\nA: 1\nA: 2\nB: 3\n".data).reverse.lookup "A" ∧
    (parse_params_block "headers" "headers \x7b\nA: 1\nA: 2\nB: 3\n\x7d").map Prod.fst
      = firstOccurs ((entriesOfBlock "\nA: 1\nA: 2\nB: 3\n".data).map Prod.fst) :=
  have h := c6_theorem "headers" "headers \x7b\nA: 1\nA: 2\nB: 3\n\x7d" "\nA: 1\nA: 2\nB: 3\n".data rfl
  ⟨h.1, h.2.1 "A", h.2.2⟩

/-! ## Claim C7: the captured body never contains a right brace -/

theorem wsBraceBody_no_rbrace (s b : List Char) (h : wsBraceBody s = some b) :
    ∀ c ∈ b, c ≠ rbrace := by
  unfold wsBraceBody at h
  cases hd : s.dropWhile pyIsSpace with
  | nil => rw [hd] at h; exact absurd h (by simp)
  | cons c rest =>
    rw [hd] at h
    dsimp only at h
    by_cases hc : c = lbrace
    · rw [if_pos hc] at h
      by_cases ha : rest.any (· = rbrace)
      · rw [if_pos ha] at h
        injection h with hb
        intro x hx
        have := List.mem_takeWhile_imp (hb ▸ hx)
        simpa using this
      · rw [if_neg ha] at h; exact absurd h (by simp)
    · rw [if_neg hc] at h; exact absurd h (by simp)

theorem tryBodyAt_no_rbrace (s bt b : List Char) (h : tryBodyAt s = some (bt, b)) :
    ∀ c ∈ b, c ≠ rbrace := by
  unfold tryBodyAt at h
  cases hc : chopLit "body:".data s with
  | none => rw [hc] at h; exact absurd h (by simp)
  | some rest =>
    rw [hc] at h
    dsimp only at h
    by_cases he : (rest.takeWhile pyIsWord).isEmpty
    · rw [if_pos he] at h; exact absurd h (by simp)
    · rw [if_neg he] at h
      cases hw : wsBraceBody (rest.dropWhile pyIsWord) with
      | none => rw [hw] at h; exact absurd h (by simp)
      | some body =>
        rw [hw] at h
        simp only [Option.some.injEq, Prod.mk.injEq] at h
        exact h.2 ▸ wsBraceBody_no_rbrace _ _ hw

theorem reSearchBody_no_rbrace (s bt b : List Char) (h : reSearchBody s = some (bt, b)) :
    ∀ c ∈ b, c ≠ rbrace := by
  induction s with
  | nil =>
    rw [reSearchBody] at h
    exact tryBodyAt_no_rbrace _ _ _ h
  | cons c cs ih =>
    rw [reSearchBody] at h
    cases ht : tryBodyAt (c :: cs) with
    | none => rw [ht] at h; exact ih h
    | some q =>
      obtain ⟨bt1, b1⟩ := q
      rw [ht] at h
      simp only [Option.some.injEq, Prod.mk.injEq] at h
      obtain ⟨h1, h2⟩ := h
      subst h1
      subst h2
      exact tryBodyAt_no_rbrace _ _ _ ht

theorem pyStrip_subset (l : List Char) (c : Char) (h : c ∈ pyStrip l) : c ∈ l := by
  unfold pyStrip at h
  rw [List.mem_reverse] at h
  have h1 := (List.dropWhile_sublist pyIsSpace).mem h
  rw [List.mem_reverse] at h1
  exact (List.dropWhile_sublist pyIsSpace).mem h1

theorem findJsonSpan_none (l : List Char) (h : ∀ c ∈ l, c ≠ rbrace) :
    findJsonSpan l = none := by
  induction l with
  | nil => rfl
  | cons c rest ih =>
    rw [findJsonSpan]
    have hany : rest.any (· = rbrace) = false := by
      rw [List.any_eq_false]
      intro x hx
      simpa using h x (List.mem_cons_of_mem _ hx)
    rw [hany]
    simp only [Bool.and_false, if_false]
    exact ih (fun x hx => h x (List.mem_cons_of_mem _ hx))

/-- C7: the source intends a body:json block containing a valid JSON object
to be pretty-printed (main.py lines 80-92), but the block pattern captures the
body only up to the first right brace, so the captured body never contains a
right brace, the embedded-object search of line 84 never succeeds, and every
body:json block falls through to the raw json-labeled fence of line 90; any
other subtype yields the raw trimmed body in a fence labeled with the subtype.
The pretty-print and the invalid-JSON fallback fences are unreachable. -/
theorem c7_theorem (t : String) (r : RequestRecord) (bt bc : List Char)
    (h : parse_bru_file t = some r) (hb : reSearchBody t.data = some (bt, bc)) :
    findJsonSpan (pyStrip bc) = none ∧
    r.body = (if String.mk (bt.map Char.toLower) = "json"
              then "```json\n" ++ pyStripS bc ++ "\n```"
              else "```" ++ String.mk bt ++ "\n" ++ pyStripS bc ++ "\n```") := by
  have hnb : ∀ c ∈ bc, c ≠ rbrace := reSearchBody_no_rbrace _ _ _ hb
  have hfind : findJsonSpan (pyStrip bc) = none :=
    findJsonSpan_none _ (fun c hc => hnb c (pyStrip_subset _ _ hc))
  refine ⟨hfind, ?_⟩
  obtain ⟨mc, mtag, mcont, hm, hh, rfl⟩ := parse_bru_file_inv t r h
  show bodyOf t = _
  unfold bodyOf
  rw [hb]
  dsimp only
  by_cases hj : String.mk (bt.map Char.toLower) = "json"
  · rw [if_pos hj, if_pos hj]
    have : (pyStripS bc).data = pyStrip bc := rfl
    rw [this, hfind]
  · rw [if_neg hj, if_neg hj]

/-- C7, witness: the failing input of the code_bug.  The file contains
body:json with the valid JSON object (a colon pair inside braces) on its own
line; the captured body is truncated before the inner closing brace and is
emitted raw in a json-labeled fence instead of being pretty-printed. -/
theorem c7_witness :
    findJsonSpan (pyStrip "\n  \x7b\"a\": 1".data) = none ∧
    ({ name := "J", seq := 999, method := "POST", url := "/j",
       path_params := [], query_params := [], headers := [],
       body := "```json\n\x7b\"a\": 1\n```" } : RequestRecord).body
      = (if String.mk ("json".data.map Char.toLower) = "json"
         then "```json\n" ++ pyStripS "\n  \x7b\"a\": 1".data ++ "\n```"
         else "```" ++ String.mk "json".data ++ "\n" ++ pyStripS "\n  \x7b\"a\": 1".data ++ "\n```") :=
  c7_theorem "meta \x7b\nname: J\n\x7d\npost \x7b\nurl: /j\n\x7d\nbody:json \x7b\n  \x7b\"a\": 1\x7d\n\x7d"
    _ "json".data "\n  \x7b\"a\": 1".data rfl rfl

/-! ## Claim C8: the per-folder sort -/

instance : IsTotal RequestRecord seqLe := ⟨fun a b => Int.le_total a.seq b.seq⟩

instance : IsTrans RequestRecord seqLe := ⟨fun _ _ _ h1 h2 => le_trans h1 h2⟩

theorem filter_orderedInsert (s : Int) (a : RequestRecord) (l : List RequestRecord) :
    (List.orderedInsert seqLe a l).filter (fun r => r.seq == s) =
      if a.seq = s then a :: l.filter (fun r => r.seq == s)
      else l.filter (fun r => r.seq == s) := by
  induction l with
  | nil =>
    by_cases h : a.seq = s
    · simp [List.orderedInsert, List.filter, h]
    · simp [List.orderedInsert, List.filter, h, beq_eq_false_iff_ne.mpr h]
  | cons b t ih =>
    rw [List.orderedInsert]
    by_cases hab : seqLe a b
    · rw [if_pos hab]
      by_cases ha : a.seq = s <;> by_cases hb : b.seq = s <;>
        simp [List.filter_cons, ha, hb]
    · rw [if_neg hab]
      by_cases hb : b.seq = s
      · by_cases ha : a.seq = s
        · exact absurd (show seqLe a b from le_of_eq (ha.trans hb.symm)) hab
        · simp [List.filter_cons, hb, ih, ha]
      · simp [List.filter_cons, hb, ih]

theorem filter_insertionSort (s : Int) (l : List RequestRecord) :
    (List.insertionSort seqLe l).filter (fun r => r.seq == s) =
      l.filter (fun r => r.seq == s) := by
  induction l with
  | nil => rfl
  | cons a t ih =>
    rw [List.insertionSort, filter_orderedInsert, List.filter_cons]
    by_cases h : a.seq = s
    · simp [h, ih]
    · simp [h, ih]

theorem sorted_split_sentinel (l : List RequestRecord) (hl : List.Sorted seqLe l) :
    l = l.filter (fun r => decide (r.seq < 999)) ++ l.filter (fun r => !decide (r.seq < 999)) := by
  induction l with
  | nil => rfl
  | cons a t ih =>
    rw [List.sorted_cons] at hl
    by_cases h : a.seq < 999
    · simp only [List.filter_cons, decide_eq_true h, Bool.not_true, List.cons_append]
      exact congrArg (a :: ·) (ih hl.2)
    · have hnone : t.filter (fun r => decide (r.seq < 999)) = [] := by
        rw [List.filter_eq_nil_iff]
        intro b hb
        have hle : a.seq ≤ b.seq := hl.1 b hb
        simp only [decide_eq_true_eq]
        omega
      have ht := ih hl.2
      rw [hnone] at ht
      simp only [List.nil_append] at ht
      simp only [List.filter_cons, decide_eq_false h, Bool.not_false, hnone, List.nil_append]
      exact congrArg (a :: ·) ht

/-- C8, counterexample: a record that declared seq 1000 sorts after a record
that declared no seq at all (sentinel 999), so a record with no declared seq
does not in general sort after all records that declared one. -/
theorem c8_counterexample :
    (processFolder ["meta \x7b\nname: A\nseq: 1000\n\x7d\nget \x7b\nurl: /a\n\x7d",
                    "meta \x7b\nname: B\n\x7d\nget \x7b\nurl: /b\n\x7d"]).map (fun r => (r.name, r.seq))
      = [("B", (999 : Int)), ("A", 1000)] ∧
    reSearchSeq "\nname: B\n".data = none ∧
    reSearchSeq "\nname: A\nseq: 1000\n".data = some 1000 := by
  exact ⟨rfl, rfl, rfl⟩

/-- C8, amended: the folder pipeline sorts the extracted records by seq
ascending and the sort is stable (records of equal seq keep their discovery
order: filtering any seq value commutes with the sort), it permutes the
extracted records, and — since an undeclared seq becomes the sentinel 999 —
every record with seq below 999 precedes every record with seq at least 999;
a record declaring a seq of 999 or more may still follow a record that
declared none. -/
theorem c8_amended_theorem (texts : List String) :
    List.Sorted seqLe (processFolder texts) ∧
    (processFolder texts).Perm (texts.filterMap parse_bru_file) ∧
    (∀ s : Int, (processFolder texts).filter (fun r => r.seq == s) =
      (texts.filterMap parse_bru_file).filter (fun r => r.seq == s)) ∧
    processFolder texts
      = (processFolder texts).filter (fun r => decide (r.seq < 999))
        ++ (processFolder texts).filter (fun r => !decide (r.seq < 999)) :=
  ⟨List.sorted_insertionSort seqLe _,
   List.perm_insertionSort seqLe _,
   fun s => filter_insertionSort s _,
   sorted_split_sentinel _ (List.sorted_insertionSort seqLe _)⟩

/-! ## Claim C9: closed form of the renderer -/

theorem strConcat_append (l1 l2 : List String) :
    strConcat (l1 ++ l2) = strConcat l1 ++ strConcat l2 := by
  induction l1 with
  | nil =>
    show strConcat l2 = "" ++ strConcat l2
    exact (String.ext (by simp [String.data_append])).symm
  | cons a rest ih =>
    show a ++ strConcat (rest ++ l2) = (a ++ strConcat rest) ++ strConcat l2
    rw [ih, String.append_assoc]

theorem joinSeg_cons (a : String) (l : List String) :
    joinSeg (a :: l) = "\n" ++ a ++ joinSeg l := rfl

theorem joinSeg_append (l1 l2 : List String) :
    joinSeg (l1 ++ l2) = joinSeg l1 ++ joinSeg l2 := by
  unfold joinSeg
  rw [List.map_append, strConcat_append]

theorem joinNl_cons (a : String) (l : List String) :
    joinNl (a :: l) = a ++ joinSeg l := by
  induction l generalizing a with
  | nil =>
    show a = a ++ ""
    exact (String.append_empty a).symm
  | cons b rest ih =>
    show a ++ "\n" ++ joinNl (b :: rest) = a ++ joinSeg (b :: rest)
    rw [ih b, joinSeg_cons]
    simp only [String.append_assoc]

theorem row_shift (kv : String × String) :
    "\n" ++ ("| \x60" ++ kv.1 ++ "\x60 | " ++ kv.2 ++ " |")
      = "\n| \x60" ++ kv.1 ++ "\x60 | " ++ kv.2 ++ " |" := by
  simp only [← String.append_assoc]
  rfl

theorem rows_shift (ps : List (String × String)) :
    strConcat ((ps.map (fun kv => "| \x60" ++ kv.1 ++ "\x60 | " ++ kv.2 ++ " |")).map
        (fun s => "\n" ++ s))
      = strConcat (ps.map (fun kv => "\n| \x60" ++ kv.1 ++ "\x60 | " ++ kv.2 ++ " |")) := by
  induction ps with
  | nil => rfl
  | cons kv rest ih =>
    simp only [List.map_cons]
    show "\n" ++ ("| \x60" ++ kv.1 ++ "\x60 | " ++ kv.2 ++ " |") ++ _
      = ("\n| \x60" ++ kv.1 ++ "\x60 | " ++ kv.2 ++ " |") ++ _
    rw [row_shift, ih]

theorem joinSeg_table (title : String) (ps : List (String × String)) :
    joinSeg (generate_table title ps) = tableSection title ps := by
  by_cases h : ps.isEmpty
  · rw [generate_table, tableSection, if_pos h, if_pos h]
    rfl
  · rw [generate_table, tableSection, if_neg h, if_neg h]
    simp only [List.cons_append]
    rw [joinSeg_cons, joinSeg_cons, joinSeg_cons, joinSeg_append]
    unfold joinSeg
    rw [rows_shift]
    simp only [List.map_cons, List.map_nil, strConcat, String.append_empty]
    simp only [String.append_assoc]

theorem joinSeg_body (b : String) :
    joinSeg (if b ≠ "" then ["**Body**\n", b] else []) = bodySection b := by
  by_cases h : b = ""
  · rw [bodySection, if_pos h]
    simp [h, joinSeg, strConcat]
  · rw [bodySection, if_neg h, if_pos h]
    rw [joinSeg_cons, joinSeg_cons]
    show "\n" ++ "**Body**\n" ++ ("\n" ++ b ++ joinSeg []) = "\n" ++ "**Body**\n" ++ "\n" ++ b
    show "\n" ++ "**Body**\n" ++ ("\n" ++ b ++ "") = "\n" ++ "**Body**\n" ++ "\n" ++ b
    rw [String.append_empty]
    simp only [String.append_assoc]

/-- C9: the rendered record equals the header lines, then — for each of Path
Parameters, Query Parameters and Headers whose map is non-empty — a labeled
two-column table with exactly one row per entry in map order (nothing at all
for an empty map), then the Body label and pre-rendered fence exactly when the
body is non-empty, terminated by the horizontal rule. -/
theorem c9_theorem (r : RequestRecord) :
    generate_request_markdown r =
      "### " ++ r.name ++ "\n" ++ "\n"
        ++ "**\x60" ++ r.method ++ "\x60** \x60" ++ r.url ++ "\x60\n"
        ++ tableSection "Path Parameters" r.path_params
        ++ tableSection "Query Parameters" r.query_params
        ++ tableSection "Headers" r.headers
        ++ bodySection r.body
        ++ "\n---\n" := by
  unfold generate_request_markdown
  rw [joinNl_cons, joinSeg_cons, joinSeg_append, joinSeg_append, joinSeg_append,
    joinSeg_table, joinSeg_table, joinSeg_table, joinSeg_body]
  simp only [String.append_assoc]
